import Mathlib

/-!
Verification of the core data pipeline of an aircraft radar display
(`threads.c` / `threads.h`): byte-stream reassembly, record decoding, the
staged commit of the live aircraft set, geographic-to-screen projection,
and joystick-driven selection.  C `float` arithmetic is embedded over `ℚ`,
with the transcendental library functions (`sqrtf`, `atan2f`, `cosf`,
`sinf`) abstracted as an oracle of pure functions; machine integers are
embedded as `ℤ`/`ℕ` with explicit two's-complement conversion where the
source depends on it.
-/

namespace FlightTracker

/-- One aircraft record (`AircraftData_t` in `threads.h`).  The C member
`char callsign[8]` stores 7 identifier bytes plus a terminator byte; the
seven meaningful bytes are modelled as a list of byte values.  C `float`
fields are modelled as rationals, `int16_t` screen coordinates as
integers, `int8_t on_screen` as `Bool`. -/
structure AircraftData where
  callsign : List Nat
  longitude : ℚ
  latitude : ℚ
  altitude : ℚ
  velocity : ℚ
  heading : ℚ
  screen_x : ℤ
  screen_y : ℤ
  on_screen : Bool
deriving Repr, DecidableEq

instance : Inhabited AircraftData := ⟨⟨[], 0, 0, 0, 0, 0, 0, 0, false⟩⟩

/-- Iteration skeleton for the C loops `for (i = 0; i < n; i++)`: applies
`f` to the accumulated state at indices `0, 1, …, n-1`, in that order. -/
def loopN {α : Type} (f : α → Nat → α) : Nat → α → α
  | 0, a => a
  | n + 1, a => f (loopN f n a) n

theorem loopN_invariant {α : Type} (f : α → Nat → α) (P : Nat → α → Prop) :
    ∀ (n : Nat) (a : α), P 0 a → (∀ k b, k < n → P k b → P (k + 1) (f b k)) →
      P n (loopN f n a)
  | 0, _, h0, _ => h0
  | n + 1, a, h0, hs => by
    have ih := loopN_invariant f P n a h0 (fun k b hk => hs k b (Nat.lt_succ_of_lt hk))
    exact hs n (loopN f n a) (Nat.lt_succ_self n) ih

/-- Shared state touched by `Update_Current_Aircrafts_Thread` in
`threads.c`: the live array `currentAircrafts` with its count, the
staging array `stagingAircrafts` with its count, and the selected index
(`int16_t selectedAircraft`, `-1` meaning none).  The fixed-capacity C
arrays are modelled as lists holding the backing storage; the counts
delimit the valid prefixes. -/
structure CommitState where
  currentAircrafts : List AircraftData
  currentAircraftCount : Nat
  stagingAircrafts : List AircraftData
  stagingAircraftCount : Nat
  selectedAircraft : ℤ
deriving Repr

/-- The pointer captured by the `SelectedCallSign` scan at the top of
`Update_Current_Aircrafts_Thread` (`threads.c` lines 691-697).  The C code
assigns `SelectedCallSign = currentAircrafts[i].callsign` — the ADDRESS of
the `callsign` array inside live slot `i` — whenever `selectedAircraft == i`
for some `i < currentAircraftCount`; otherwise `SelectedCallSign` keeps the
address of the string literal `"N/A"`.  The address of slot `i`'s
`callsign` member identifies `i` (and never equals the literal's address),
so the captured pointer is modelled as `some i`, the literal as `none`. -/
def selectedCallSignPtr (s : CommitState) : Option Nat :=
  if 0 ≤ s.selectedAircraft ∧ s.selectedAircraft.toNat < s.currentAircraftCount then
    some s.selectedAircraft.toNat
  else none

/-- One iteration of the copy loop of `Update_Current_Aircrafts_Thread`
(`threads.c` lines 701-707): `currentAircrafts[i] = stagingAircrafts[i];`
then the POINTER comparison
`if (currentAircrafts[i].callsign == SelectedCallSign)` — address
equality, i.e. `ptr = some i` — conditionally assigns
`selectedAircraft = i`. -/
def commitCopyStep (staging : List AircraftData) (ptr : Option Nat)
    (acc : List AircraftData × ℤ) (i : Nat) : List AircraftData × ℤ :=
  (acc.1.set i (staging.getD i default),
   if ptr = some i then (i : ℤ) else acc.2)

/-- The body of `Update_Current_Aircrafts_Thread` for one burst
(`threads.c` lines 690-711): capture the selected record's callsign
pointer, copy `stagingAircrafts[0..stagingAircraftCount)` into
`currentAircrafts` running the pointer check at each slot, then set
`currentAircraftCount = stagingAircraftCount` and reset
`stagingAircraftCount = 0`. -/
def commitBurst (s : CommitState) : CommitState :=
  let ptr := selectedCallSignPtr s
  let copied := loopN (commitCopyStep s.stagingAircrafts ptr) s.stagingAircraftCount
    (s.currentAircrafts, s.selectedAircraft)
  { currentAircrafts := copied.1
    currentAircraftCount := s.stagingAircraftCount
    stagingAircrafts := s.stagingAircrafts
    stagingAircraftCount := 0
    selectedAircraft := copied.2 }

/-- Record with identifier bytes "UAL123 ". -/
def ualRecord : AircraftData :=
  ⟨[85, 65, 76, 49, 50, 51, 32], 0, 0, 0, 0, 0, 0, 0, true⟩

/-- Record with identifier bytes "DAL456 ". -/
def dalRecord : AircraftData :=
  ⟨[68, 65, 76, 52, 53, 54, 32], 0, 0, 0, 0, 0, 0, 0, true⟩

/-- C1: the code contradicts the selection-identifier invariant.  Before
the commit, live slot 0 holds "UAL123 " and is selected (slot 1 of the
backing array is unused garbage, count is 1); the staged burst holds
"DAL456 " at slot 0 and "UAL123 " at slot 1.  Because the C code compares
callsign POINTERS rather than bytes, the pointer captured from live slot 0
matches the refilled slot 0, so after the commit the selection still
points at index 0 — whose identifier is now "DAL456 " — even though a
record with the captured identifier "UAL123 " exists in the new live set
at index 1. -/
theorem commit_keeps_stale_index_despite_identifier_present :
    (commitBurst ⟨[ualRecord, default], 1, [dalRecord, ualRecord], 2, 0⟩).selectedAircraft
      = 0 ∧
    ((commitBurst ⟨[ualRecord, default], 1, [dalRecord, ualRecord], 2,
      0⟩).currentAircrafts.getD 1 default).callsign = ualRecord.callsign ∧
    ((commitBurst ⟨[ualRecord, default], 1, [dalRecord, ualRecord], 2,
      0⟩).currentAircrafts.getD 0 default).callsign ≠ ualRecord.callsign := by
  refine ⟨rfl, rfl, ?_⟩
  decide

/-- C2: the code never clears the selection when the captured identifier
is absent from the new live set.  Before the commit, live slot 0 holds
"UAL123 " and is selected; the staged burst holds only "DAL456 ".  After
the commit no live record carries the identifier "UAL123 ", yet the
selection is still index 0 rather than the required -1 ("none"). -/
theorem commit_not_cleared_when_identifier_absent :
    (commitBurst ⟨[ualRecord], 1, [dalRecord], 1, 0⟩).selectedAircraft = 0 ∧
    (commitBurst ⟨[ualRecord], 1, [dalRecord], 1, 0⟩).selectedAircraft ≠ -1 ∧
    ∀ j < (commitBurst ⟨[ualRecord], 1, [dalRecord], 1, 0⟩).currentAircraftCount,
      ((commitBurst ⟨[ualRecord], 1, [dalRecord], 1, 0⟩).currentAircrafts.getD j
        default).callsign ≠ ualRecord.callsign := by
  refine ⟨rfl, by decide, ?_⟩
  decide

/-- C3: after a commit, the live count equals the staging count observed
immediately before the commit, the staging count is 0, and the first
live-count records of the live array are exactly the staged records in
order. -/
theorem commitBurst_counts_and_prefix (s : CommitState)
    (hcur : s.stagingAircraftCount ≤ s.currentAircrafts.length) :
    (commitBurst s).currentAircraftCount = s.stagingAircraftCount ∧
    (commitBurst s).stagingAircraftCount = 0 ∧
    ∀ j < (commitBurst s).currentAircraftCount,
      (commitBurst s).currentAircrafts.getD j default =
        s.stagingAircrafts.getD j default := by
  refine ⟨rfl, rfl, ?_⟩
  intro j hj
  have main := loopN_invariant (commitCopyStep s.stagingAircrafts (selectedCallSignPtr s))
    (fun k acc => acc.1.length = s.currentAircrafts.length ∧
      ∀ i, i < k → acc.1.getD i default = s.stagingAircrafts.getD i default)
    s.stagingAircraftCount (s.currentAircrafts, s.selectedAircraft)
    ⟨rfl, fun i hi => absurd hi (Nat.not_lt_zero i)⟩
    (by
      intro k b hk hb
      refine ⟨by simp [commitCopyStep, hb.1], ?_⟩
      intro i hi
      rcases Nat.lt_succ_iff_lt_or_eq.mp hi with h | h
      · have := hb.2 i h
        simp only [commitCopyStep, List.getD_eq_getElem?_getD, List.getElem?_set]
        rw [if_neg (by omega)]
        simpa [List.getD_eq_getElem?_getD] using this
      · subst h
        have hlen : i < b.1.length := by
          rw [hb.1]; exact Nat.lt_of_lt_of_le hk hcur
        simp [commitCopyStep, List.getD_eq_getElem?_getD, List.getElem?_set, hlen])
  exact main.2 j hj

/-- C3 witness: a burst of 2 staged records committed over a live array of
capacity 2 holding 1 record. -/
theorem commitBurst_counts_and_prefix_witness :
    ((⟨[ualRecord, default], 1, [dalRecord, ualRecord], 2, 0⟩ :
        CommitState).stagingAircraftCount ≤
      (⟨[ualRecord, default], 1, [dalRecord, ualRecord], 2, 0⟩ :
        CommitState).currentAircrafts.length) ∧
    ((commitBurst ⟨[ualRecord, default], 1, [dalRecord, ualRecord], 2,
        0⟩).currentAircraftCount =
      (⟨[ualRecord, default], 1, [dalRecord, ualRecord], 2, 0⟩ :
        CommitState).stagingAircraftCount ∧
    (commitBurst ⟨[ualRecord, default], 1, [dalRecord, ualRecord], 2,
        0⟩).stagingAircraftCount = 0 ∧
    ∀ j < (commitBurst ⟨[ualRecord, default], 1, [dalRecord, ualRecord], 2,
        0⟩).currentAircraftCount,
      (commitBurst ⟨[ualRecord, default], 1, [dalRecord, ualRecord], 2,
        0⟩).currentAircrafts.getD j default =
      (⟨[ualRecord, default], 1, [dalRecord, ualRecord], 2, 0⟩ :
        CommitState).stagingAircrafts.getD j default) :=
  ⟨by decide,
   commitBurst_counts_and_prefix
     ⟨[ualRecord, default], 1, [dalRecord, ualRecord], 2, 0⟩ (by decide)⟩

/-- Bitwise-or of a left-shifted value with a value that fits entirely
below the shift amount is ordinary addition. -/
theorem two_pow_mul_lor_eq_add {n a b : Nat} (hb : b < 2 ^ n) :
    ((2 ^ n * a) ||| b) = 2 ^ n * a + b := by
  apply Nat.eq_of_testBit_eq
  intro j
  rw [Nat.testBit_lor, Nat.testBit_mul_pow_two_add a hb j]
  by_cases hj : j < n
  · have hlow : (2 ^ n * a).testBit j = false := by
      have h2 : 2 ^ n * a = 2 ^ n * a + 0 := by ring
      rw [h2, Nat.testBit_mul_pow_two_add a (Nat.pos_pow_of_pos n (by norm_num)) j,
        if_pos hj, Nat.zero_testBit]
    rw [hlow, if_pos hj, Bool.false_or]
  · have hhigh : b.testBit j = false :=
      Nat.testBit_lt_two_pow
        (lt_of_lt_of_le hb (Nat.pow_le_pow_right (by norm_num) (le_of_not_lt hj)))
    have h2 : 2 ^ n * a = 2 ^ n * a + 0 := by ring
    rw [hhigh, if_neg hj, Bool.or_false, h2,
      Nat.testBit_mul_pow_two_add a (Nat.pos_pow_of_pos n (by norm_num)) j, if_neg hj]

/-- Same fact with the shift written as `<<<`, matching the C source. -/
theorem shiftLeft_lor_eq_add {n a b : Nat} (hb : b < 2 ^ n) :
    (a <<< n ||| b) = a <<< n + b := by
  rw [Nat.shiftLeft_eq, mul_comm]
  exact two_pow_mul_lor_eq_add hb

/-- `MESSAGE_SIZE` from `threads.h`: total bytes of one aircraft record. -/
def MESSAGE_SIZE : Nat := 28

/-- State of `UART4_Handler` (`threads.c` lines 776-820): the static
4-byte accumulator with its index (modelled as the list of the bytes
accumulated so far), the static `uint8_t message_byte_count`, the words
written to `DATA_FIFO`, and running counts of the `sem_BURST_COMPLETE`
and `sem_DATA_READY` signals. -/
structure UartState where
  byteBuffer : List Nat
  messageByteCount : Nat
  dataFifo : List Nat
  burstCompleteSignals : Nat
  dataReadySignals : Nat
deriving Repr, DecidableEq

/-- The 32-bit word formed from the 4 accumulated bytes (`threads.c`
lines 794-797): `byte_buffer[0] | byte_buffer[1] << 8 |
byte_buffer[2] << 16 | byte_buffer[3] << 24`, first received byte least
significant. -/
def wordOfBytes (bs : List Nat) : Nat :=
  bs.getD 0 0 ||| bs.getD 1 0 <<< 8 ||| bs.getD 2 0 <<< 16 ||| bs.getD 3 0 <<< 24

/-- The `message_byte_count >= MESSAGE_SIZE` check at the bottom of the
receive loop (`threads.c` lines 814-817): signal `sem_DATA_READY` and
reset the counter. -/
def checkMessageComplete (s : UartState) : UartState :=
  if MESSAGE_SIZE ≤ s.messageByteCount then
    { s with messageByteCount := 0, dataReadySignals := s.dataReadySignals + 1 }
  else s

/-- Accumulation of one received byte and the 4-byte word step
(`threads.c` lines 786-811): append the byte, bump the `uint8_t` message
counter (mod 256); when 4 bytes have accumulated form the word, and
either signal `sem_BURST_COMPLETE` and reset the counter (all-ones word)
or write the word to `DATA_FIFO`. -/
def accumByte (s : UartState) (b : Nat) : UartState :=
  let buf := s.byteBuffer ++ [b % 256]
  let mc := (s.messageByteCount + 1) % 256
  if buf.length = 4 then
    let word := wordOfBytes buf
    if word = 0xFFFFFFFF then
      { s with byteBuffer := [], messageByteCount := 0,
               burstCompleteSignals := s.burstCompleteSignals + 1 }
    else
      { s with byteBuffer := [], messageByteCount := mc,
               dataFifo := s.dataFifo ++ [word] }
  else
    { s with byteBuffer := buf, messageByteCount := mc }

/-- Processing of one byte by `UART4_Handler`: accumulate it, then run
the message-complete check. -/
def feedByte (s : UartState) (b : Nat) : UartState :=
  checkMessageComplete (accumByte s b)

/-- Processing of a byte sequence by `UART4_Handler`, in arrival order. -/
def feedBytes (s : UartState) (bs : List Nat) : UartState :=
  bs.foldl feedByte s

@[simp]
theorem checkMessageComplete_byteBuffer (s : UartState) :
    (checkMessageComplete s).byteBuffer = s.byteBuffer := by
  simp only [checkMessageComplete]; split <;> rfl

@[simp]
theorem checkMessageComplete_dataFifo (s : UartState) :
    (checkMessageComplete s).dataFifo = s.dataFifo := by
  simp only [checkMessageComplete]; split <;> rfl

@[simp]
theorem checkMessageComplete_burstCompleteSignals (s : UartState) :
    (checkMessageComplete s).burstCompleteSignals = s.burstCompleteSignals := by
  simp only [checkMessageComplete]; split <;> rfl

/-- The little-endian value of a completed 4-byte group. -/
theorem wordOfBytes_eq {b0 b1 b2 b3 : Nat}
    (h0 : b0 < 256) (h1 : b1 < 256) (h2 : b2 < 256) (h3 : b3 < 256) :
    wordOfBytes [b0, b1, b2, b3] = b0 + b1 * 2 ^ 8 + b2 * 2 ^ 16 + b3 * 2 ^ 24 := by
  show b0 ||| b1 <<< 8 ||| b2 <<< 16 ||| b3 <<< 24 = _
  rw [Nat.lor_comm b0 (b1 <<< 8), shiftLeft_lor_eq_add (by omega),
    Nat.lor_comm _ (b2 <<< 16), shiftLeft_lor_eq_add (by omega),
    Nat.lor_comm _ (b3 <<< 24), shiftLeft_lor_eq_add (by omega),
    Nat.shiftLeft_eq, Nat.shiftLeft_eq, Nat.shiftLeft_eq]
  ring

/-- A partial accumulation step (fewer than 4 bytes in the buffer)
appends the byte and touches neither the FIFO nor the burst counter. -/
theorem feedByte_partial (s : UartState) (b : Nat) (h : s.byteBuffer.length + 1 ≠ 4) :
    (feedByte s b).byteBuffer = s.byteBuffer ++ [b % 256] ∧
    (feedByte s b).dataFifo = s.dataFifo ∧
    (feedByte s b).burstCompleteSignals = s.burstCompleteSignals := by
  have hlen : ¬s.byteBuffer.length = 3 := by omega
  refine ⟨?_, ?_, ?_⟩ <;> simp [feedByte, accumByte, hlen]

/-- C4: each completed group of 4 consecutive bytes fed to the
reassembler forms one little-endian 32-bit word (first byte least
significant); the all-ones word 0xFFFFFFFF raises a burst-complete
signal, resets the message-byte counter, and is not written to the word
queue; every other completed word is appended to the word queue. -/
theorem uart_word_group (s : UartState) (b0 b1 b2 b3 : Nat)
    (hbuf : s.byteBuffer = [])
    (h0 : b0 < 256) (h1 : b1 < 256) (h2 : b2 < 256) (h3 : b3 < 256) :
    (feedBytes s [b0, b1, b2, b3]).byteBuffer = [] ∧
    (b0 + b1 * 2 ^ 8 + b2 * 2 ^ 16 + b3 * 2 ^ 24 = 0xFFFFFFFF →
      (feedBytes s [b0, b1, b2, b3]).dataFifo = s.dataFifo ∧
      (feedBytes s [b0, b1, b2, b3]).burstCompleteSignals = s.burstCompleteSignals + 1 ∧
      (feedBytes s [b0, b1, b2, b3]).messageByteCount = 0) ∧
    (b0 + b1 * 2 ^ 8 + b2 * 2 ^ 16 + b3 * 2 ^ 24 ≠ 0xFFFFFFFF →
      (feedBytes s [b0, b1, b2, b3]).dataFifo =
        s.dataFifo ++ [b0 + b1 * 2 ^ 8 + b2 * 2 ^ 16 + b3 * 2 ^ 24] ∧
      (feedBytes s [b0, b1, b2, b3]).burstCompleteSignals = s.burstCompleteSignals) := by
  have e0 := Nat.mod_eq_of_lt h0
  have e1 := Nat.mod_eq_of_lt h1
  have e2 := Nat.mod_eq_of_lt h2
  have e3 := Nat.mod_eq_of_lt h3
  have hfeed : feedBytes s [b0, b1, b2, b3] =
      feedByte (feedByte (feedByte (feedByte s b0) b1) b2) b3 := by
    simp only [feedBytes, List.foldl]
  obtain ⟨p1b', p1f, p1s⟩ := feedByte_partial s b0 (by rw [hbuf]; simp)
  have p1b : (feedByte s b0).byteBuffer = [b0] := by rw [p1b', hbuf, e0]; rfl
  obtain ⟨p2b', p2f, p2s⟩ := feedByte_partial (feedByte s b0) b1 (by rw [p1b]; simp)
  have p2b : (feedByte (feedByte s b0) b1).byteBuffer = [b0, b1] := by
    rw [p2b', p1b, e1]; rfl
  obtain ⟨p3b', p3f, p3s⟩ := feedByte_partial (feedByte (feedByte s b0) b1) b2
    (by rw [p2b]; simp)
  have p3b : (feedByte (feedByte (feedByte s b0) b1) b2).byteBuffer = [b0, b1, b2] := by
    rw [p3b', p2b, e2]; rfl
  have hlast : feedByte (feedByte (feedByte (feedByte s b0) b1) b2) b3 =
      checkMessageComplete (accumByte (feedByte (feedByte (feedByte s b0) b1) b2) b3) := by
    simp only [feedByte]
  have haccum : accumByte (feedByte (feedByte (feedByte s b0) b1) b2) b3 =
      (if wordOfBytes [b0, b1, b2, b3] = 0xFFFFFFFF then
        { feedByte (feedByte (feedByte s b0) b1) b2 with
          byteBuffer := [], messageByteCount := 0,
          burstCompleteSignals :=
            (feedByte (feedByte (feedByte s b0) b1) b2).burstCompleteSignals + 1 }
      else
        { feedByte (feedByte (feedByte s b0) b1) b2 with
          byteBuffer := [],
          messageByteCount :=
            ((feedByte (feedByte (feedByte s b0) b1) b2).messageByteCount + 1) % 256,
          dataFifo := (feedByte (feedByte (feedByte s b0) b1) b2).dataFifo ++
            [wordOfBytes [b0, b1, b2, b3]] }) := by
    simp only [accumByte, p3b, e3]
    norm_num
  rw [wordOfBytes_eq h0 h1 h2 h3] at haccum
  refine ⟨?_, ?_, ?_⟩
  · rw [hfeed, hlast, haccum]
    split <;> simp
  · intro hw
    rw [hfeed, hlast, haccum, if_pos hw]
    refine ⟨by simp [p3f, p2f, p1f], by simp [p3s, p2s, p1s], ?_⟩
    simp [checkMessageComplete, MESSAGE_SIZE]
  · intro hw
    rw [hfeed, hlast, haccum, if_neg hw]
    exact ⟨by simp [p3f, p2f, p1f], by simp [p3s, p2s, p1s]⟩

/-- C4 witness: the sentinel group 0xFF 0xFF 0xFF 0xFF fed to the
freshly-initialized handler raises exactly one burst-complete signal and
queues nothing. -/
theorem uart_word_group_witness :
    ((⟨[], 0, [], 0, 0⟩ : UartState).byteBuffer = [] ∧
      (255 : Nat) < 256 ∧ (255 : Nat) < 256 ∧ (255 : Nat) < 256 ∧ (255 : Nat) < 256) ∧
    ((feedBytes ⟨[], 0, [], 0, 0⟩ [255, 255, 255, 255]).byteBuffer = [] ∧
    (255 + 255 * 2 ^ 8 + 255 * 2 ^ 16 + 255 * 2 ^ 24 = 0xFFFFFFFF →
      (feedBytes ⟨[], 0, [], 0, 0⟩ [255, 255, 255, 255]).dataFifo =
        (⟨[], 0, [], 0, 0⟩ : UartState).dataFifo ∧
      (feedBytes ⟨[], 0, [], 0, 0⟩ [255, 255, 255, 255]).burstCompleteSignals =
        (⟨[], 0, [], 0, 0⟩ : UartState).burstCompleteSignals + 1 ∧
      (feedBytes ⟨[], 0, [], 0, 0⟩ [255, 255, 255, 255]).messageByteCount = 0) ∧
    (255 + 255 * 2 ^ 8 + 255 * 2 ^ 16 + 255 * 2 ^ 24 ≠ 0xFFFFFFFF →
      (feedBytes ⟨[], 0, [], 0, 0⟩ [255, 255, 255, 255]).dataFifo =
        (⟨[], 0, [], 0, 0⟩ : UartState).dataFifo ++
          [255 + 255 * 2 ^ 8 + 255 * 2 ^ 16 + 255 * 2 ^ 24] ∧
      (feedBytes ⟨[], 0, [], 0, 0⟩ [255, 255, 255, 255]).burstCompleteSignals =
        (⟨[], 0, [], 0, 0⟩ : UartState).burstCompleteSignals)) :=
  ⟨⟨rfl, by decide, by decide, by decide, by decide⟩,
   uart_word_group ⟨[], 0, [], 0, 0⟩ 255 255 255 255 rfl
     (by decide) (by decide) (by decide) (by decide)⟩

/-- Two's-complement value of a 32-bit word read back from the FIFO as C
`int32_t`. -/
def toSigned32 (w : Nat) : ℤ :=
  if w < 2 ^ 31 then (w : ℤ) else (w : ℤ) - 2 ^ 32

/-- The 64-bit two's-complement bit pattern of an integer, as held by a C
`int64_t`. -/
def pattern64 (z : ℤ) : Nat := (z % 2 ^ 64).toNat

/-- `((int64_t)high_byte << 32) | low_byte` (`threads.c` line 598): both
`int32_t` operands are converted to `int64_t` — the low word
SIGN-EXTENDING — and the bitwise or acts on the 64-bit patterns. -/
def callsignRaw (w0 w1 : Nat) : Nat :=
  pattern64 (toSigned32 w1 * 2 ^ 32) ||| pattern64 (toSigned32 w0)

/-- The sentinel identifier bytes "N/A    " installed by
`strncpy(callsign, "N/A    ", sizeof(callsign))` (`threads.c` line 608). -/
def naCallsign : List Nat := [78, 47, 65, 32, 32, 32, 32]

/-- One record decode by `Process_New_Aircraft_Thread` (`threads.c` lines
596-658) from the 7 words popped from `DATA_FIFO`, in pop order.  The 7
callsign bytes are `(callsign_raw >> (i * 8)) & 0xFF` — on the
non-negative 64-bit pattern this is division and remainder; if the first
byte is the space character the callsign is replaced with the sentinel.
Words 2-6 are reinterpreted as `int32_t` and divided by 10000.0 to give
longitude, latitude, altitude, velocity, heading in that order.  The
struct members `screen_x`, `screen_y`, `on_screen` are left uninitialized
by the C code; the model gives them defaults. -/
def decodeRecord (w0 w1 w2 w3 w4 w5 w6 : Nat) : AircraftData :=
  let raw := callsignRaw w0 w1
  let cs := (List.range 7).map (fun i => raw / 2 ^ (i * 8) % 256)
  { callsign := if cs.getD 0 0 = 32 then naCallsign else cs
    longitude := (toSigned32 w2 : ℚ) / 10000
    latitude := (toSigned32 w3 : ℚ) / 10000
    altitude := (toSigned32 w4 : ℚ) / 10000
    velocity := (toSigned32 w5 : ℚ) / 10000
    heading := (toSigned32 w6 : ℚ) / 10000
    screen_x := 0
    screen_y := 0
    on_screen := false }

/-- When word 0 carries an ASCII (high-bit-clear) fourth byte, the
sign-extension in `callsign_raw` is inert and the 64-bit pattern is the
plain concatenation of the two words. -/
theorem callsignRaw_eq {w0 w1 : Nat} (hw0 : w0 < 2 ^ 32) (hw1 : w1 < 2 ^ 32)
    (ha3 : w0 / 2 ^ 24 % 256 < 128) :
    callsignRaw w0 w1 = 2 ^ 32 * w1 + w0 := by
  have hw0' : w0 < 2 ^ 31 := by omega
  have hlow : pattern64 (toSigned32 w0) = w0 := by
    simp only [pattern64, toSigned32, if_pos hw0']
    omega
  have hhigh : pattern64 (toSigned32 w1 * 2 ^ 32) = 2 ^ 32 * w1 := by
    simp only [pattern64, toSigned32]
    split <;> omega
  rw [callsignRaw, hlow, hhigh, two_pow_mul_lor_eq_add hw0]

/-- C5: decoding one record from 7 queued words whose identifier half
consists of 7 ASCII characters plus a pad byte reconstructs the
identifier with byte 0 the least-significant byte of word 0 and bytes 4-6
the low bytes of word 1; a leading space byte replaces the identifier
with the "N/A" sentinel; and longitude, latitude, altitude, velocity and
heading are words 2-6 as signed 32-bit integers divided by 10000. -/
theorem decodeRecord_fields (w0 w1 w2 w3 w4 w5 w6 : Nat)
    (hw0 : w0 < 2 ^ 32) (hw1 : w1 < 2 ^ 32)
    (ha0 : w0 % 256 < 128) (ha1 : w0 / 2 ^ 8 % 256 < 128)
    (ha2 : w0 / 2 ^ 16 % 256 < 128) (ha3 : w0 / 2 ^ 24 % 256 < 128)
    (hb0 : w1 % 256 < 128) (hb1 : w1 / 2 ^ 8 % 256 < 128)
    (hb2 : w1 / 2 ^ 16 % 256 < 128) :
    (w0 % 256 ≠ 32 →
      (decodeRecord w0 w1 w2 w3 w4 w5 w6).callsign.getD 0 0 = w0 % 256 ∧
      (decodeRecord w0 w1 w2 w3 w4 w5 w6).callsign.getD 4 0 = w1 % 256 ∧
      (decodeRecord w0 w1 w2 w3 w4 w5 w6).callsign.getD 5 0 = w1 / 2 ^ 8 % 256 ∧
      (decodeRecord w0 w1 w2 w3 w4 w5 w6).callsign.getD 6 0 = w1 / 2 ^ 16 % 256) ∧
    (w0 % 256 = 32 →
      (decodeRecord w0 w1 w2 w3 w4 w5 w6).callsign = naCallsign) ∧
    (decodeRecord w0 w1 w2 w3 w4 w5 w6).longitude = (toSigned32 w2 : ℚ) / 10000 ∧
    (decodeRecord w0 w1 w2 w3 w4 w5 w6).latitude = (toSigned32 w3 : ℚ) / 10000 ∧
    (decodeRecord w0 w1 w2 w3 w4 w5 w6).altitude = (toSigned32 w4 : ℚ) / 10000 ∧
    (decodeRecord w0 w1 w2 w3 w4 w5 w6).velocity = (toSigned32 w5 : ℚ) / 10000 ∧
    (decodeRecord w0 w1 w2 w3 w4 w5 w6).heading = (toSigned32 w6 : ℚ) / 10000 := by
  have hraw := callsignRaw_eq hw0 hw1 ha3
  have hget : ∀ k, k < 7 →
      ((List.range 7).map (fun i => callsignRaw w0 w1 / 2 ^ (i * 8) % 256)).getD k 0 =
        (2 ^ 32 * w1 + w0) / 2 ^ (k * 8) % 256 := by
    intro k hk
    rw [List.getD_eq_getElem?_getD, List.getElem?_map, List.getElem?_range hk]
    simp [hraw]
  have hb0eq : (2 ^ 32 * w1 + w0) / 2 ^ (0 * 8) % 256 = w0 % 256 := by omega
  have hcs : (decodeRecord w0 w1 w2 w3 w4 w5 w6).callsign =
      if w0 % 256 = 32 then naCallsign
      else (List.range 7).map (fun i => callsignRaw w0 w1 / 2 ^ (i * 8) % 256) := by
    simp only [decodeRecord, hget 0 (by norm_num), hb0eq]
  refine ⟨?_, ?_, rfl, rfl, rfl, rfl, rfl⟩
  · intro hne
    rw [hcs, if_neg hne]
    refine ⟨?_, ?_, ?_, ?_⟩
    · rw [hget 0 (by norm_num)]; omega
    · rw [hget 4 (by norm_num)]; omega
    · rw [hget 5 (by norm_num)]; omega
    · rw [hget 6 (by norm_num)]; omega
  · intro heq
    rw [hcs, if_pos heq]

/-- C5 witness: words 827081045 / 538981170 encode the identifier
"UAL123" with two trailing spaces; the numeric words decode scaled by
10000. -/
theorem decodeRecord_fields_witness :
    ((827081045 : Nat) < 2 ^ 32 ∧ (538981170 : Nat) < 2 ^ 32 ∧
      (827081045 : Nat) % 256 < 128 ∧ (827081045 : Nat) / 2 ^ 8 % 256 < 128 ∧
      (827081045 : Nat) / 2 ^ 16 % 256 < 128 ∧ (827081045 : Nat) / 2 ^ 24 % 256 < 128 ∧
      (538981170 : Nat) % 256 < 128 ∧ (538981170 : Nat) / 2 ^ 8 % 256 < 128 ∧
      (538981170 : Nat) / 2 ^ 16 % 256 < 128) ∧
    ((827081045 % 256 ≠ 32 →
      (decodeRecord 827081045 538981170 42 43 44 45 46).callsign.getD 0 0 =
        827081045 % 256 ∧
      (decodeRecord 827081045 538981170 42 43 44 45 46).callsign.getD 4 0 =
        538981170 % 256 ∧
      (decodeRecord 827081045 538981170 42 43 44 45 46).callsign.getD 5 0 =
        538981170 / 2 ^ 8 % 256 ∧
      (decodeRecord 827081045 538981170 42 43 44 45 46).callsign.getD 6 0 =
        538981170 / 2 ^ 16 % 256) ∧
    (827081045 % 256 = 32 →
      (decodeRecord 827081045 538981170 42 43 44 45 46).callsign = naCallsign) ∧
    (decodeRecord 827081045 538981170 42 43 44 45 46).longitude =
      (toSigned32 42 : ℚ) / 10000 ∧
    (decodeRecord 827081045 538981170 42 43 44 45 46).latitude =
      (toSigned32 43 : ℚ) / 10000 ∧
    (decodeRecord 827081045 538981170 42 43 44 45 46).altitude =
      (toSigned32 44 : ℚ) / 10000 ∧
    (decodeRecord 827081045 538981170 42 43 44 45 46).velocity =
      (toSigned32 45 : ℚ) / 10000 ∧
    (decodeRecord 827081045 538981170 42 43 44 45 46).heading =
      (toSigned32 46 : ℚ) / 10000) :=
  ⟨⟨by decide, by decide, by decide, by decide, by decide, by decide, by decide,
    by decide, by decide⟩,
   decodeRecord_fields 827081045 538981170 42 43 44 45 46
     (by decide) (by decide) (by decide) (by decide) (by decide) (by decide)
     (by decide) (by decide) (by decide)⟩

/-- The four transcendental C library functions used by the projector,
abstracted as pure rational-valued oracles.  `sqrtf`, `atan2f`, `cosf`
and `sinf` are deterministic functions of their arguments, so any fixed
interpretation is sound for the structural and idempotence properties
proved below. -/
structure TrigOracle where
  sqrtO : ℚ → ℚ
  atan2O : ℚ → ℚ → ℚ
  cosO : ℚ → ℚ
  sinO : ℚ → ℚ

/-- `M_PI` from `threads.h`. -/
def M_PI : ℚ := 3.14159265358979323846

/-- `CENTER_LATITUDE` (`threads.c` line 52). -/
def CENTER_LATITUDE : ℚ := 29.6465

/-- `CENTER_LONGITUDE` (`threads.c` line 53). -/
def CENTER_LONGITUDE : ℚ := -82.3533

/-- Truncation toward zero: the C cast from a float value to an integer
type. -/
def truncQ (q : ℚ) : ℤ := if 0 ≤ q then ⌊q⌋ else ⌈q⌉

/-- North-south offset in km (`threads.c` lines 92, 97, 100):
`delta_latitude * km_per_degree_lat`. -/
def distanceLatitudeKm (a : AircraftData) : ℚ :=
  (a.latitude - CENTER_LATITUDE) * 111.32

/-- East-west offset in km (`threads.c` lines 93, 96, 98, 101):
`delta_longitude * (111.32 * cos(CENTER_LATITUDE in radians))`. -/
def distanceLongitudeKm (o : TrigOracle) (a : AircraftData) : ℚ :=
  (a.longitude - CENTER_LONGITUDE) * (111.32 * o.cosO (CENTER_LATITUDE * (M_PI / 180)))

/-- Equirectangular radial distance from the reference point
(`threads.c` lines 104-105). -/
def distanceFromCenter (o : TrigOracle) (a : AircraftData) : ℚ :=
  o.sqrtO (distanceLatitudeKm a * distanceLatitudeKm a +
    distanceLongitudeKm o a * distanceLongitudeKm o a)

/-- Bearing angle from the reference point (`threads.c` line 107). -/
def bearingAngle (o : TrigOracle) (a : AircraftData) : ℚ :=
  o.atan2O (distanceLatitudeKm a) (distanceLongitudeKm o a)

/-- The in-range update of one record (`threads.c` lines 118-129): mark
it on-screen and map (distance, bearing) onto the pixel circle of radius
`max_pixel_radius = 100` anchored at the radar center.  `X_MAX` comes
from the external display driver and is kept as a parameter; the C code
stores `abs(...)` of the `int16_t` sums. -/
def projectAircraft (o : TrigOracle) (X_MAX : ℤ) (range : Nat) (a : AircraftData) :
    AircraftData :=
  let radar_center_x := X_MAX / 2
  let radar_center_y : ℤ := 70 + (279 - 70 + 1) / 2
  let scale : ℚ := 100 / (range : ℚ)
  let pixel_distance := distanceFromCenter o a * scale
  let screen_x := radar_center_x + truncQ (pixel_distance * o.cosO (bearingAngle o a))
  let screen_y := radar_center_y - truncQ (pixel_distance * o.sinO (bearingAngle o a))
  { a with screen_x := |screen_x|, screen_y := |screen_y|, on_screen := true }

/-- State read and written by `recalculate_screen_positions`: the live
records `currentAircrafts[0..currentAircraftCount)`, the selected index
and a running count of `sem_INFO_DISPLAY` signals. -/
structure DisplayState where
  aircrafts : List AircraftData
  selectedAircraft : ℤ
  infoSignals : Nat

/-- The loop body of `recalculate_screen_positions` for index `i`
(`threads.c` lines 88-153): a record beyond the display range is marked
off-screen — clearing the selection and signalling the info display if it
was the selected one, and leaving its stale screen coordinates untouched
(the C `continue`) — while a record in range is marked on-screen and
projected. -/
def recalcStep (o : TrigOracle) (X_MAX : ℤ) (range : Nat) (st : DisplayState)
    (i : Nat) : DisplayState :=
  let a := st.aircrafts.getD i default
  if (range : ℚ) < distanceFromCenter o a then
    { aircrafts := st.aircrafts.set i { a with on_screen := false }
      selectedAircraft :=
        if (i : ℤ) = st.selectedAircraft then -1 else st.selectedAircraft
      infoSignals :=
        if (i : ℤ) = st.selectedAircraft then st.infoSignals + 1 else st.infoSignals }
  else
    { st with aircrafts := st.aircrafts.set i (projectAircraft o X_MAX range a) }

/-- `recalculate_screen_positions` (`threads.c` lines 79-157): the loop
over `currentAircrafts[0..currentAircraftCount)`; the list models exactly
the live prefix, so the loop bound is its length. -/
def recalculateScreenPositions (o : TrigOracle) (X_MAX : ℤ) (range : Nat)
    (st : DisplayState) : DisplayState :=
  loopN (recalcStep o X_MAX range) st.aircrafts.length st

/-- The net effect of one projector iteration on the record it visits. -/
def processRecord (o : TrigOracle) (X_MAX : ℤ) (range : Nat) (a : AircraftData) :
    AircraftData :=
  if (range : ℚ) < distanceFromCenter o a then { a with on_screen := false }
  else projectAircraft o X_MAX range a

theorem recalcStep_aircrafts (o : TrigOracle) (X_MAX : ℤ) (range : Nat)
    (st : DisplayState) (i : Nat) :
    (recalcStep o X_MAX range st i).aircrafts =
      st.aircrafts.set i (processRecord o X_MAX range (st.aircrafts.getD i default)) := by
  simp only [recalcStep, processRecord]
  split <;> rfl

theorem processRecord_idem (o : TrigOracle) (X_MAX : ℤ) (range : Nat)
    (a : AircraftData) :
    processRecord o X_MAX range (processRecord o X_MAX range a) =
      processRecord o X_MAX range a := by
  by_cases h : (range : ℚ) < distanceFromCenter o a
  · have h1 : processRecord o X_MAX range a = { a with on_screen := false } := by
      simp [processRecord, h]
    have hd : distanceFromCenter o ({ a with on_screen := false } : AircraftData) =
        distanceFromCenter o a := rfl
    rw [h1]
    simp [processRecord, hd, h]
  · have h1 : processRecord o X_MAX range a = projectAircraft o X_MAX range a := by
      simp [processRecord, h]
    have hd : distanceFromCenter o (projectAircraft o X_MAX range a) =
        distanceFromCenter o a := rfl
    rw [h1]
    simp only [processRecord, hd, if_neg h]
    rfl

theorem recalculate_get (o : TrigOracle) (X_MAX : ℤ) (range : Nat)
    (st : DisplayState) (j : Nat) :
    (recalculateScreenPositions o X_MAX range st).aircrafts[j]? =
      (st.aircrafts[j]?).map (processRecord o X_MAX range) := by
  have main := loopN_invariant (recalcStep o X_MAX range)
    (fun k b => b.aircrafts.length = st.aircrafts.length ∧
      ∀ j, b.aircrafts[j]? =
        if j < k then (st.aircrafts[j]?).map (processRecord o X_MAX range)
        else st.aircrafts[j]?)
    st.aircrafts.length st
    ⟨rfl, fun j => by simp⟩
    (by
      intro k b hk hb
      refine ⟨by rw [recalcStep_aircrafts, List.length_set, hb.1], ?_⟩
      intro j
      have hbk : b.aircrafts[k]? = st.aircrafts[k]? := by
        rw [hb.2 k, if_neg (lt_irrefl k)]
      have hgd : b.aircrafts.getD k default = st.aircrafts.getD k default := by
        rw [List.getD_eq_getElem?_getD, List.getD_eq_getElem?_getD, hbk]
      rw [recalcStep_aircrafts, List.getElem?_set, hgd]
      by_cases hjk : k = j
      · subst hjk
        have hklen : k < b.aircrafts.length := hb.1 ▸ hk
        rw [if_pos rfl, if_pos hklen, if_pos (Nat.lt_succ_self k)]
        have : st.aircrafts[k]? = some (st.aircrafts.getD k default) := by
          rw [List.getD_eq_getElem?_getD]
          cases hsome : st.aircrafts[k]? with
          | none => exact absurd (List.getElem?_eq_none_iff.mp hsome) (by omega)
          | some v => rfl
        rw [this]
        rfl
      · rw [if_neg hjk, hb.2 j]
        by_cases hj : j < k
        · rw [if_pos hj, if_pos (Nat.lt_succ_of_lt hj)]
        · rw [if_neg hj, if_neg (by omega)])
  rcases Nat.lt_or_ge j st.aircrafts.length with hj | hj
  · rw [show (recalculateScreenPositions o X_MAX range st).aircrafts =
        (loopN (recalcStep o X_MAX range) st.aircrafts.length st).aircrafts from rfl,
      main.2 j, if_pos hj]
  · rw [show (recalculateScreenPositions o X_MAX range st).aircrafts =
        (loopN (recalcStep o X_MAX range) st.aircrafts.length st).aircrafts from rfl,
      main.2 j, if_neg (by omega)]
    rw [List.getElem?_eq_none_iff.mpr hj]
    rfl

/-- C7: running `recalculate_screen_positions` twice with no intervening
change to the live records or the display range leaves every record —
screen coordinates and visibility flags included — identical to the
result of running it once. -/
theorem recalculate_idempotent (o : TrigOracle) (X_MAX : ℤ) (range : Nat)
    (st : DisplayState) :
    (recalculateScreenPositions o X_MAX range
      (recalculateScreenPositions o X_MAX range st)).aircrafts =
      (recalculateScreenPositions o X_MAX range st).aircrafts := by
  apply List.ext_getElem?
  intro j
  rw [recalculate_get, recalculate_get]
  cases h : st.aircrafts[j]? with
  | none => rfl
  | some a => simp [processRecord_idem]

/-- Truncation toward zero never grows the magnitude past an integer
bound. -/
theorem truncQ_abs_le {q : ℚ} {c : ℤ} (hc : 0 ≤ c) (h : |q| ≤ (c : ℚ)) :
    |truncQ q| ≤ c := by
  rcases abs_le.mp h with ⟨hlo, hhi⟩
  rcases le_or_lt 0 q with hq | hq
  · rw [truncQ, if_pos hq, abs_of_nonneg (Int.floor_nonneg.mpr hq)]
    calc ⌊q⌋ ≤ ⌊(c : ℚ)⌋ := Int.floor_le_floor hhi
    _ = c := Int.floor_intCast c
  · rw [truncQ, if_neg (not_le.mpr hq)]
    have hup : ⌈q⌉ ≤ c := by
      calc ⌈q⌉ ≤ ⌈(c : ℚ)⌉ := Int.ceil_le_ceil hhi
      _ = c := Int.ceil_intCast c
    have hdn : -c ≤ ⌈q⌉ := by
      have h1 : ((-c : ℤ) : ℚ) ≤ q := by push_cast; linarith
      calc -c = ⌈((-c : ℤ) : ℚ)⌉ := (Int.ceil_intCast _).symm
      _ ≤ ⌈q⌉ := Int.ceil_le_ceil h1
    exact abs_le.mpr ⟨hdn, hup⟩

/-- C6: one projector iteration on record `i`: when the equirectangular
distance exceeds the display radius the record is marked not visible and,
if it was the selection, the selection is cleared to -1 and an
info-display refresh is signalled; otherwise the record is marked visible
and receives screen coordinates offset from the fixed radar center by the
truncated pixel distance `distance * (100 / display_range_km)` along its
bearing.  The oracle bounds state that `sqrtf` returned a non-negative
value and that `cosf`/`sinf` returned values in [-1, 1] — true of the C
library functions — and `200 ≤ X_MAX` makes the C `abs(...)` on the pixel
sums inert. -/
theorem recalcStep_projection (o : TrigOracle) (X_MAX : ℤ) (range : Nat)
    (st : DisplayState) (i : Nat)
    (hi : i < st.aircrafts.length) (hrange : 0 < range) (hX : 200 ≤ X_MAX)
    (hsqrt : 0 ≤ distanceFromCenter o (st.aircrafts.getD i default))
    (hcos : |o.cosO (bearingAngle o (st.aircrafts.getD i default))| ≤ 1)
    (hsin : |o.sinO (bearingAngle o (st.aircrafts.getD i default))| ≤ 1) :
    if (range : ℚ) < distanceFromCenter o (st.aircrafts.getD i default) then
      ((recalcStep o X_MAX range st i).aircrafts.getD i default).on_screen = false ∧
      ((i : ℤ) = st.selectedAircraft →
        (recalcStep o X_MAX range st i).selectedAircraft = -1 ∧
        (recalcStep o X_MAX range st i).infoSignals = st.infoSignals + 1)
    else
      ((recalcStep o X_MAX range st i).aircrafts.getD i default).on_screen = true ∧
      ((recalcStep o X_MAX range st i).aircrafts.getD i default).screen_x =
        X_MAX / 2 + truncQ (distanceFromCenter o (st.aircrafts.getD i default) *
          (100 / (range : ℚ)) *
          o.cosO (bearingAngle o (st.aircrafts.getD i default))) ∧
      ((recalcStep o X_MAX range st i).aircrafts.getD i default).screen_y =
        (70 + (279 - 70 + 1) / 2 : ℤ) -
          truncQ (distanceFromCenter o (st.aircrafts.getD i default) *
            (100 / (range : ℚ)) *
            o.sinO (bearingAngle o (st.aircrafts.getD i default))) := by
  have hgd : ∀ x : AircraftData,
      ((st.aircrafts.set i x).getD i default) = x := by
    intro x
    rw [List.getD_eq_getElem?_getD, List.getElem?_set, if_pos rfl, if_pos hi]
    rfl
  by_cases h : (range : ℚ) < distanceFromCenter o (st.aircrafts.getD i default)
  · rw [if_pos h]
    constructor
    · rw [show (recalcStep o X_MAX range st i).aircrafts =
          st.aircrafts.set i
            { st.aircrafts.getD i default with on_screen := false } from by
        simp only [recalcStep, if_pos h], hgd]
    · intro hsel
      simp only [recalcStep, if_pos h, hsel, if_pos rfl]
      exact ⟨rfl, rfl⟩
  · rw [if_neg h]
    have harr : (recalcStep o X_MAX range st i).aircrafts =
        st.aircrafts.set i
          (projectAircraft o X_MAX range (st.aircrafts.getD i default)) := by
      simp only [recalcStep, if_neg h]
    -- bounds making the abs in projectAircraft inert
    have hrq : (0 : ℚ) < (range : ℚ) := by exact_mod_cast hrange
    have hdle : distanceFromCenter o (st.aircrafts.getD i default) ≤ (range : ℚ) :=
      not_lt.mp h
    have hpd0 : 0 ≤ distanceFromCenter o (st.aircrafts.getD i default) *
        (100 / (range : ℚ)) :=
      mul_nonneg hsqrt (by positivity)
    have hpd100 : distanceFromCenter o (st.aircrafts.getD i default) *
        (100 / (range : ℚ)) ≤ 100 := by
      have step := mul_le_mul_of_nonneg_right hdle (le_of_lt (by positivity :
        (0 : ℚ) < 100 / (range : ℚ)))
      calc distanceFromCenter o (st.aircrafts.getD i default) * (100 / (range : ℚ))
          ≤ (range : ℚ) * (100 / (range : ℚ)) := step
      _ = 100 := by field_simp
    have hboundc : |distanceFromCenter o (st.aircrafts.getD i default) *
        (100 / (range : ℚ)) *
        o.cosO (bearingAngle o (st.aircrafts.getD i default))| ≤ ((100 : ℤ) : ℚ) := by
      rw [abs_mul, abs_of_nonneg hpd0]
      push_cast
      calc distanceFromCenter o (st.aircrafts.getD i default) * (100 / (range : ℚ)) *
            |o.cosO (bearingAngle o (st.aircrafts.getD i default))|
          ≤ distanceFromCenter o (st.aircrafts.getD i default) * (100 / (range : ℚ)) * 1 :=
            mul_le_mul_of_nonneg_left hcos hpd0
      _ ≤ 100 := by rw [mul_one]; exact hpd100
    have hbounds : |distanceFromCenter o (st.aircrafts.getD i default) *
        (100 / (range : ℚ)) *
        o.sinO (bearingAngle o (st.aircrafts.getD i default))| ≤ ((100 : ℤ) : ℚ) := by
      rw [abs_mul, abs_of_nonneg hpd0]
      push_cast
      calc distanceFromCenter o (st.aircrafts.getD i default) * (100 / (range : ℚ)) *
            |o.sinO (bearingAngle o (st.aircrafts.getD i default))|
          ≤ distanceFromCenter o (st.aircrafts.getD i default) * (100 / (range : ℚ)) * 1 :=
            mul_le_mul_of_nonneg_left hsin hpd0
      _ ≤ 100 := by rw [mul_one]; exact hpd100
    have htc := truncQ_abs_le (by norm_num) hboundc
    have hts := truncQ_abs_le (by norm_num) hbounds
    rw [harr, hgd]
    rcases abs_le.mp htc with ⟨htc1, htc2⟩
    rcases abs_le.mp hts with ⟨hts1, hts2⟩
    refine ⟨rfl, ?_, ?_⟩
    · show |X_MAX / 2 + truncQ (distanceFromCenter o (st.aircrafts.getD i default) *
          (100 / (range : ℚ)) *
          o.cosO (bearingAngle o (st.aircrafts.getD i default)))| = _
      rw [abs_of_nonneg (by omega)]
    · show |(70 + (279 - 70 + 1) / 2 : ℤ) -
          truncQ (distanceFromCenter o (st.aircrafts.getD i default) *
            (100 / (range : ℚ)) *
            o.sinO (bearingAngle o (st.aircrafts.getD i default)))| = _
      rw [abs_of_nonneg (by omega)]

/-- A fixed all-zero interpretation of the transcendental oracles, used
for concrete evaluations. -/
def zeroOracle : TrigOracle := ⟨fun _ => 0, fun _ _ => 0, fun _ => 0, fun _ => 0⟩

/-- C6 witness: a single record at distance 0 under the zero oracle, with
display radius 50 km and a 240-pixel-wide screen. -/
theorem recalcStep_projection_witness :
    ((0 : Nat) < (⟨[default], 0, 0⟩ : DisplayState).aircrafts.length ∧
      (0 : Nat) < 50 ∧ (200 : ℤ) ≤ 240 ∧
      0 ≤ distanceFromCenter zeroOracle
        ((⟨[default], 0, 0⟩ : DisplayState).aircrafts.getD 0 default) ∧
      |zeroOracle.cosO (bearingAngle zeroOracle
        ((⟨[default], 0, 0⟩ : DisplayState).aircrafts.getD 0 default))| ≤ 1 ∧
      |zeroOracle.sinO (bearingAngle zeroOracle
        ((⟨[default], 0, 0⟩ : DisplayState).aircrafts.getD 0 default))| ≤ 1) ∧
    (if ((50 : Nat) : ℚ) < distanceFromCenter zeroOracle
        ((⟨[default], 0, 0⟩ : DisplayState).aircrafts.getD 0 default) then
      ((recalcStep zeroOracle 240 50 ⟨[default], 0, 0⟩ 0).aircrafts.getD 0
        default).on_screen = false ∧
      ((0 : ℤ) = (⟨[default], 0, 0⟩ : DisplayState).selectedAircraft →
        (recalcStep zeroOracle 240 50 ⟨[default], 0, 0⟩ 0).selectedAircraft = -1 ∧
        (recalcStep zeroOracle 240 50 ⟨[default], 0, 0⟩ 0).infoSignals =
          (⟨[default], 0, 0⟩ : DisplayState).infoSignals + 1)
    else
      ((recalcStep zeroOracle 240 50 ⟨[default], 0, 0⟩ 0).aircrafts.getD 0
        default).on_screen = true ∧
      ((recalcStep zeroOracle 240 50 ⟨[default], 0, 0⟩ 0).aircrafts.getD 0
        default).screen_x =
        240 / 2 + truncQ (distanceFromCenter zeroOracle
          ((⟨[default], 0, 0⟩ : DisplayState).aircrafts.getD 0 default) *
          (100 / ((50 : Nat) : ℚ)) *
          zeroOracle.cosO (bearingAngle zeroOracle
            ((⟨[default], 0, 0⟩ : DisplayState).aircrafts.getD 0 default))) ∧
      ((recalcStep zeroOracle 240 50 ⟨[default], 0, 0⟩ 0).aircrafts.getD 0
        default).screen_y =
        (70 + (279 - 70 + 1) / 2 : ℤ) -
          truncQ (distanceFromCenter zeroOracle
            ((⟨[default], 0, 0⟩ : DisplayState).aircrafts.getD 0 default) *
            (100 / ((50 : Nat) : ℚ)) *
            zeroOracle.sinO (bearingAngle zeroOracle
              ((⟨[default], 0, 0⟩ : DisplayState).aircrafts.getD 0 default)))) :=
  ⟨⟨by decide, by decide, by decide, by decide, by decide, by decide⟩,
   recalcStep_projection zeroOracle 240 50 ⟨[default], 0, 0⟩ 0
     (by decide) (by decide) (by decide) (by decide) (by decide) (by decide)⟩

/-- The C `FLT_MAX`, the initial value of `minDifference` in
`closest_aircraft_by_angle`: the exact value of (2 - 2^-23) * 2^127,
written as its integer numeral. -/
def FLT_MAX : ℚ := 340282346638528859811704183484516925440

/-- One iteration of the candidate scan in `closest_aircraft_by_angle`
(`threads.c` lines 194-229).  The accumulator is
`(closestIndex, minDifference)`; the four guarded branches are in source
order (east, west, north, south), with the direction flags
`goingWest = |dx| > |dy| && dx > 0`, `goingEast = |dx| > |dy| && dx < 0`,
`goingSouth = |dy| > |dx| && dy > 0`, `goingNorth = |dy| > |dx| && dy < 0`
inlined. -/
def closestStep (st : DisplayState) (dx dy : ℤ) (refLatitude refLongitude : ℚ)
    (acc : ℤ × ℚ) (i : Nat) : ℤ × ℚ :=
  if (i : ℤ) = st.selectedAircraft then acc
  else
    let aircraft := st.aircrafts.getD i default
    if aircraft.on_screen = true then
      let deltaLon := aircraft.longitude - refLongitude
      let deltaLat := aircraft.latitude - refLatitude
      if (|dy| < |dx| ∧ dx < 0) ∧ 0 < deltaLon then
        if deltaLon < acc.2 then ((i : ℤ), deltaLon) else acc
      else if (|dy| < |dx| ∧ 0 < dx) ∧ deltaLon < 0 then
        if |deltaLon| < acc.2 then ((i : ℤ), |deltaLon|) else acc
      else if (|dx| < |dy| ∧ dy < 0) ∧ 0 < deltaLat then
        if deltaLat < acc.2 then ((i : ℤ), deltaLat) else acc
      else if (|dx| < |dy| ∧ 0 < dy) ∧ deltaLat < 0 then
        if |deltaLat| < acc.2 then ((i : ℤ), |deltaLat|) else acc
      else acc
    else acc

/-- `closest_aircraft_by_angle` (`threads.c` lines 169-236): with no
selection return -1; otherwise scan all live records for the nearest
qualifying one in the joystick direction, keeping the previous selection
when no candidate qualifies.  `MIDPOINT = 4096 / 2`. -/
def closest_aircraft_by_angle (st : DisplayState) (joystick_dx joystick_dy : ℤ) : ℤ :=
  if st.selectedAircraft = -1 then -1
  else
    let dx := joystick_dx - 4096 / 2
    let dy := joystick_dy - 4096 / 2
    let refLatitude := (st.aircrafts.getD st.selectedAircraft.toNat default).latitude
    let refLongitude := (st.aircrafts.getD st.selectedAircraft.toNat default).longitude
    let result := loopN (closestStep st dx dy refLatitude refLongitude)
      st.aircrafts.length (-1, FLT_MAX)
    if result.1 = -1 then st.selectedAircraft else result.1

/-- The four joystick directions as named by the C flags. -/
inductive JoyDir
  | east
  | west
  | north
  | south
deriving DecidableEq, Repr

/-- The direction classifier of `closest_aircraft_by_angle` (`threads.c`
lines 185-188) as a pure function of the midpoint offsets: strict
dominance of one axis picks a direction, anything else picks none. -/
def classifyDirection (dx dy : ℤ) : Option JoyDir :=
  if |dy| < |dx| ∧ 0 < dx then some JoyDir.west
  else if |dy| < |dx| ∧ dx < 0 then some JoyDir.east
  else if |dx| < |dy| ∧ 0 < dy then some JoyDir.south
  else if |dx| < |dy| ∧ dy < 0 then some JoyDir.north
  else none

/-- The signed coordinate delta the scan minimizes in a given direction,
positive exactly when the candidate lies in that direction. -/
def dirDelta (d : JoyDir) (refLongitude refLatitude : ℚ) (a : AircraftData) : ℚ :=
  match d with
  | JoyDir.east => a.longitude - refLongitude
  | JoyDir.west => refLongitude - a.longitude
  | JoyDir.north => a.latitude - refLatitude
  | JoyDir.south => refLatitude - a.latitude

/-- With equal axis magnitudes every directional branch of the scan is
dead: the accumulator passes through unchanged. -/
theorem closestStep_neutral (st : DisplayState) (dx dy : ℤ) (refLatitude refLongitude : ℚ)
    (acc : ℤ × ℚ) (i : Nat) (h : |dx| = |dy|) :
    closestStep st dx dy refLatitude refLongitude acc i = acc := by
  have h1 : ¬(|dy| < |dx|) := by rw [h]; exact lt_irrefl _
  have h2 : ¬(|dx| < |dy|) := by rw [h]; exact lt_irrefl _
  simp only [closestStep]
  split_ifs <;> first | rfl | tauto

/-- C10: a joystick sample whose two offsets from the midpoint 2048 have
exactly equal magnitudes (the exact midpoint included) classifies to no
direction, and `closest_aircraft_by_angle` returns the current selection
unchanged. -/
theorem joystick_diagonal_keeps_selection (st : DisplayState) (jx jy : ℤ)
    (h : |jx - 4096 / 2| = |jy - 4096 / 2|) :
    classifyDirection (jx - 4096 / 2) (jy - 4096 / 2) = none ∧
    closest_aircraft_by_angle st jx jy = st.selectedAircraft := by
  have h1 : ¬(|jy - 4096 / 2| < |jx - 4096 / 2|) := by rw [h]; exact lt_irrefl _
  have h2 : ¬(|jx - 4096 / 2| < |jy - 4096 / 2|) := by rw [h]; exact lt_irrefl _
  constructor
  · simp only [classifyDirection]
    rw [if_neg (by tauto), if_neg (by tauto), if_neg (by tauto), if_neg (by tauto)]
  · simp only [closest_aircraft_by_angle]
    by_cases hsel : st.selectedAircraft = -1
    · rw [if_pos hsel, hsel]
    · rw [if_neg hsel]
      have hloop : loopN (closestStep st (jx - 4096 / 2) (jy - 4096 / 2)
          ((st.aircrafts.getD st.selectedAircraft.toNat default).latitude)
          ((st.aircrafts.getD st.selectedAircraft.toNat default).longitude))
          st.aircrafts.length (-1, FLT_MAX) = ((-1 : ℤ), FLT_MAX) :=
        loopN_invariant _ (fun _ acc => acc = ((-1 : ℤ), FLT_MAX))
          st.aircrafts.length _ rfl
          (fun k b _ hb => by rw [closestStep_neutral st _ _ _ _ b k h, hb])
      rw [hloop]
      rfl

/-- C10 witness: the exact midpoint sample (2048, 2048) with no
selection. -/
theorem joystick_diagonal_keeps_selection_witness :
    (|(2048 : ℤ) - 4096 / 2| = |(2048 : ℤ) - 4096 / 2|) ∧
    (classifyDirection ((2048 : ℤ) - 4096 / 2) ((2048 : ℤ) - 4096 / 2) = none ∧
      closest_aircraft_by_angle ⟨[ualRecord], -1, 0⟩ 2048 2048 =
        (⟨[ualRecord], -1, 0⟩ : DisplayState).selectedAircraft) :=
  ⟨rfl, joystick_diagonal_keeps_selection ⟨[ualRecord], -1, 0⟩ 2048 2048 rfl⟩

/-- Generic analysis of a first-wins strict-minimum scan over `ℚ` with
initial bound `FLT_MAX`: either no index qualifies and the accumulator is
untouched, or the result is a qualifying index attaining the minimum
value. -/
theorem scanMinLoop (n : Nat) (f : ℤ × ℚ → Nat → ℤ × ℚ) (δ : Nat → ℚ) (Q : Nat → Prop)
    [DecidablePred Q]
    (hstep : ∀ acc i, i < n →
      f acc i = if Q i ∧ δ i < acc.2 then ((i : ℤ), δ i) else acc)
    (hflt : ∀ i, i < n → Q i → δ i < FLT_MAX) :
    (loopN f n (-1, FLT_MAX) = ((-1 : ℤ), FLT_MAX) ∧ ∀ j, j < n → ¬Q j) ∨
    (∃ j, j < n ∧ Q j ∧ loopN f n (-1, FLT_MAX) = ((j : ℤ), δ j) ∧
      ∀ k, k < n → Q k → δ j ≤ δ k) := by
  exact loopN_invariant f
    (fun k acc => (acc = ((-1 : ℤ), FLT_MAX) ∧ ∀ j, j < k → ¬Q j) ∨
      (∃ j, j < k ∧ Q j ∧ acc = ((j : ℤ), δ j) ∧ ∀ m, m < k → Q m → δ j ≤ δ m))
    n (-1, FLT_MAX) (Or.inl ⟨rfl, fun j hj => absurd hj (Nat.not_lt_zero j)⟩)
    (by
      intro k b hk hb
      rw [hstep b k hk]
      rcases hb with ⟨hbe, hnone⟩ | ⟨j, hj, hQj, hbe, hmin⟩
      · by_cases hQ : Q k
        · rw [hbe, if_pos ⟨hQ, hflt k hk hQ⟩]
          refine Or.inr ⟨k, Nat.lt_succ_self k, hQ, rfl, ?_⟩
          intro m hm hQm
          rcases Nat.lt_succ_iff_lt_or_eq.mp hm with hm' | hm'
          · exact absurd hQm (hnone m hm')
          · subst hm'; exact le_refl _
        · rw [if_neg (fun hcon => hQ hcon.1)]
          refine Or.inl ⟨hbe, ?_⟩
          intro m hm
          rcases Nat.lt_succ_iff_lt_or_eq.mp hm with hm' | hm'
          · exact hnone m hm'
          · subst hm'; exact hQ
      · rw [hbe]
        by_cases hQ : Q k ∧ δ k < δ j
        · rw [if_pos hQ]
          refine Or.inr ⟨k, Nat.lt_succ_self k, hQ.1, rfl, ?_⟩
          intro m hm hQm
          rcases Nat.lt_succ_iff_lt_or_eq.mp hm with hm' | hm'
          · exact le_of_lt (lt_of_lt_of_le hQ.2 (hmin m hm' hQm))
          · subst hm'; exact le_refl _
        · rw [if_neg hQ]
          refine Or.inr ⟨j, Nat.lt_succ_of_lt hj, hQj, rfl, ?_⟩
          intro m hm hQm
          rcases Nat.lt_succ_iff_lt_or_eq.mp hm with hm' | hm'
          · exact hmin m hm' hQm
          · subst hm'
            exact not_lt.mp (fun hlt => hQ ⟨hQm, hlt⟩))

theorem closestStep_east (st : DisplayState) (dx dy : ℤ) (refLatitude refLongitude : ℚ)
    (hE : |dy| < |dx| ∧ dx < 0) (acc : ℤ × ℚ) (i : Nat) :
    closestStep st dx dy refLatitude refLongitude acc i =
      if (((i : ℤ) ≠ st.selectedAircraft ∧
            (st.aircrafts.getD i default).on_screen = true ∧
            0 < dirDelta JoyDir.east refLongitude refLatitude
              (st.aircrafts.getD i default)) ∧
          dirDelta JoyDir.east refLongitude refLatitude
            (st.aircrafts.getD i default) < acc.2) then
        ((i : ℤ),
          dirDelta JoyDir.east refLongitude refLatitude (st.aircrafts.getD i default))
      else acc := by
  have hW : ¬(|dy| < |dx| ∧ 0 < dx) := fun hc => absurd (lt_trans hc.2 hE.2) (lt_irrefl 0)
  have hNS : ¬(|dx| < |dy|) := not_lt.mpr (le_of_lt hE.1)
  simp only [closestStep, dirDelta]
  by_cases hs : (i : ℤ) = st.selectedAircraft
  · rw [if_pos hs, if_neg (fun hc => hc.1.1 hs)]
  · rw [if_neg hs]
    by_cases ho : (st.aircrafts.getD i default).on_screen = true
    · rw [if_pos ho]
      by_cases hpos : 0 < (st.aircrafts.getD i default).longitude - refLongitude
      · rw [if_pos ⟨hE, hpos⟩]
        by_cases hmin :
            (st.aircrafts.getD i default).longitude - refLongitude < acc.2
        · rw [if_pos hmin, if_pos ⟨⟨hs, ho, hpos⟩, hmin⟩]
        · rw [if_neg hmin, if_neg (fun hc => hmin hc.2)]
      · rw [if_neg (fun hc => hpos hc.2), if_neg (fun hc => hW hc.1),
          if_neg (fun hc => hNS hc.1.1), if_neg (fun hc => hNS hc.1.1),
          if_neg (fun hc => hpos hc.1.2.2)]
    · rw [if_neg ho, if_neg (fun hc => ho hc.1.2.1)]

theorem closestStep_west (st : DisplayState) (dx dy : ℤ) (refLatitude refLongitude : ℚ)
    (hWd : |dy| < |dx| ∧ 0 < dx) (acc : ℤ × ℚ) (i : Nat) :
    closestStep st dx dy refLatitude refLongitude acc i =
      if (((i : ℤ) ≠ st.selectedAircraft ∧
            (st.aircrafts.getD i default).on_screen = true ∧
            0 < dirDelta JoyDir.west refLongitude refLatitude
              (st.aircrafts.getD i default)) ∧
          dirDelta JoyDir.west refLongitude refLatitude
            (st.aircrafts.getD i default) < acc.2) then
        ((i : ℤ),
          dirDelta JoyDir.west refLongitude refLatitude (st.aircrafts.getD i default))
      else acc := by
  have hEn : ¬(|dy| < |dx| ∧ dx < 0) := fun hc => absurd (lt_trans hc.2 hWd.2) (lt_irrefl dx)
  have hNS : ¬(|dx| < |dy|) := not_lt.mpr (le_of_lt hWd.1)
  simp only [closestStep, dirDelta]
  by_cases hs : (i : ℤ) = st.selectedAircraft
  · rw [if_pos hs, if_neg (fun hc => hc.1.1 hs)]
  · rw [if_neg hs]
    by_cases ho : (st.aircrafts.getD i default).on_screen = true
    · rw [if_pos ho]
      by_cases hneg : (st.aircrafts.getD i default).longitude - refLongitude < 0
      · have habs : |(st.aircrafts.getD i default).longitude - refLongitude| =
            refLongitude - (st.aircrafts.getD i default).longitude := by
          rw [abs_of_neg hneg, neg_sub]
        have hpos : 0 < refLongitude - (st.aircrafts.getD i default).longitude := by
          linarith
        rw [habs, if_neg (fun hc => hEn hc.1), if_pos ⟨hWd, hneg⟩]
        by_cases hmin :
            refLongitude - (st.aircrafts.getD i default).longitude < acc.2
        · rw [if_pos hmin, if_pos ⟨⟨hs, ho, hpos⟩, hmin⟩]
        · rw [if_neg hmin, if_neg (fun hc => hmin hc.2)]
      · have hnpos : ¬(0 < refLongitude - (st.aircrafts.getD i default).longitude) := by
          rw [not_lt] at hneg ⊢
          linarith
        rw [if_neg (fun hc => hEn hc.1), if_neg (fun hc => hneg hc.2),
          if_neg (fun hc => hNS hc.1.1), if_neg (fun hc => hNS hc.1.1),
          if_neg (fun hc => hnpos hc.1.2.2)]
    · rw [if_neg ho, if_neg (fun hc => ho hc.1.2.1)]

theorem closestStep_north (st : DisplayState) (dx dy : ℤ) (refLatitude refLongitude : ℚ)
    (hN : |dx| < |dy| ∧ dy < 0) (acc : ℤ × ℚ) (i : Nat) :
    closestStep st dx dy refLatitude refLongitude acc i =
      if (((i : ℤ) ≠ st.selectedAircraft ∧
            (st.aircrafts.getD i default).on_screen = true ∧
            0 < dirDelta JoyDir.north refLongitude refLatitude
              (st.aircrafts.getD i default)) ∧
          dirDelta JoyDir.north refLongitude refLatitude
            (st.aircrafts.getD i default) < acc.2) then
        ((i : ℤ),
          dirDelta JoyDir.north refLongitude refLatitude (st.aircrafts.getD i default))
      else acc := by
  have hS : ¬(|dx| < |dy| ∧ 0 < dy) := fun hc => absurd (lt_trans hc.2 hN.2) (lt_irrefl 0)
  have hEW : ¬(|dy| < |dx|) := not_lt.mpr (le_of_lt hN.1)
  simp only [closestStep, dirDelta]
  by_cases hs : (i : ℤ) = st.selectedAircraft
  · rw [if_pos hs, if_neg (fun hc => hc.1.1 hs)]
  · rw [if_neg hs]
    by_cases ho : (st.aircrafts.getD i default).on_screen = true
    · rw [if_pos ho]
      by_cases hpos : 0 < (st.aircrafts.getD i default).latitude - refLatitude
      · rw [if_neg (fun hc => hEW hc.1.1), if_neg (fun hc => hEW hc.1.1),
          if_pos ⟨hN, hpos⟩]
        by_cases hmin :
            (st.aircrafts.getD i default).latitude - refLatitude < acc.2
        · rw [if_pos hmin, if_pos ⟨⟨hs, ho, hpos⟩, hmin⟩]
        · rw [if_neg hmin, if_neg (fun hc => hmin hc.2)]
      · rw [if_neg (fun hc => hEW hc.1.1), if_neg (fun hc => hEW hc.1.1),
          if_neg (fun hc => hpos hc.2), if_neg (fun hc => hS hc.1),
          if_neg (fun hc => hpos hc.1.2.2)]
    · rw [if_neg ho, if_neg (fun hc => ho hc.1.2.1)]

theorem closestStep_south (st : DisplayState) (dx dy : ℤ) (refLatitude refLongitude : ℚ)
    (hS : |dx| < |dy| ∧ 0 < dy) (acc : ℤ × ℚ) (i : Nat) :
    closestStep st dx dy refLatitude refLongitude acc i =
      if (((i : ℤ) ≠ st.selectedAircraft ∧
            (st.aircrafts.getD i default).on_screen = true ∧
            0 < dirDelta JoyDir.south refLongitude refLatitude
              (st.aircrafts.getD i default)) ∧
          dirDelta JoyDir.south refLongitude refLatitude
            (st.aircrafts.getD i default) < acc.2) then
        ((i : ℤ),
          dirDelta JoyDir.south refLongitude refLatitude (st.aircrafts.getD i default))
      else acc := by
  have hNn : ¬(|dx| < |dy| ∧ dy < 0) := fun hc => absurd (lt_trans hc.2 hS.2) (lt_irrefl dy)
  have hEW : ¬(|dy| < |dx|) := not_lt.mpr (le_of_lt hS.1)
  simp only [closestStep, dirDelta]
  by_cases hs : (i : ℤ) = st.selectedAircraft
  · rw [if_pos hs, if_neg (fun hc => hc.1.1 hs)]
  · rw [if_neg hs]
    by_cases ho : (st.aircrafts.getD i default).on_screen = true
    · rw [if_pos ho]
      by_cases hneg : (st.aircrafts.getD i default).latitude - refLatitude < 0
      · have habs : |(st.aircrafts.getD i default).latitude - refLatitude| =
            refLatitude - (st.aircrafts.getD i default).latitude := by
          rw [abs_of_neg hneg, neg_sub]
        have hpos : 0 < refLatitude - (st.aircrafts.getD i default).latitude := by
          linarith
        rw [habs, if_neg (fun hc => hEW hc.1.1), if_neg (fun hc => hEW hc.1.1),
          if_neg (fun hc => hNn hc.1), if_pos ⟨hS, hneg⟩]
        by_cases hmin :
            refLatitude - (st.aircrafts.getD i default).latitude < acc.2
        · rw [if_pos hmin, if_pos ⟨⟨hs, ho, hpos⟩, hmin⟩]
        · rw [if_neg hmin, if_neg (fun hc => hmin hc.2)]
      · have hnpos : ¬(0 < refLatitude - (st.aircrafts.getD i default).latitude) := by
          rw [not_lt] at hneg ⊢
          linarith
        rw [if_neg (fun hc => hEW hc.1.1), if_neg (fun hc => hEW hc.1.1),
          if_neg (fun hc => hNn hc.1), if_neg (fun hc => hneg hc.2),
          if_neg (fun hc => hnpos hc.1.2.2)]
    · rw [if_neg ho, if_neg (fun hc => ho hc.1.2.1)]

theorem classify_east_flags {dx dy : ℤ}
    (h : classifyDirection dx dy = some JoyDir.east) : |dy| < |dx| ∧ dx < 0 := by
  unfold classifyDirection at h
  split_ifs at h with h1 h2 h3 h4 <;> first | exact h2 | exact absurd h (by decide)

theorem classify_west_flags {dx dy : ℤ}
    (h : classifyDirection dx dy = some JoyDir.west) : |dy| < |dx| ∧ 0 < dx := by
  unfold classifyDirection at h
  split_ifs at h with h1 h2 h3 h4 <;> first | exact h1 | exact absurd h (by decide)

theorem classify_north_flags {dx dy : ℤ}
    (h : classifyDirection dx dy = some JoyDir.north) : |dx| < |dy| ∧ dy < 0 := by
  unfold classifyDirection at h
  split_ifs at h with h1 h2 h3 h4 <;> first | exact h4 | exact absurd h (by decide)

theorem classify_south_flags {dx dy : ℤ}
    (h : classifyDirection dx dy = some JoyDir.south) : |dx| < |dy| ∧ 0 < dy := by
  unfold classifyDirection at h
  split_ifs at h with h1 h2 h3 h4 <;> first | exact h3 | exact absurd h (by decide)

/-- C8: with an aircraft selected and a strictly dominant joystick axis,
the scan picks — among visible, non-selected live records with a
positive signed delta in the classified direction — one attaining the
minimum such delta; the result is never the currently selected record;
and when no record qualifies, the selection is returned unchanged.  The
`FLT_MAX` hypothesis mirrors the C initialization of `minDifference`:
every candidate delta must undercut it to be considered at all. -/
theorem closest_directional_min (st : DisplayState) (jx jy : ℤ) (d : JoyDir)
    (hsel : 0 ≤ st.selectedAircraft)
    (hlen : st.selectedAircraft.toNat < st.aircrafts.length)
    (hdir : classifyDirection (jx - 4096 / 2) (jy - 4096 / 2) = some d)
    (hflt : ∀ i, i < st.aircrafts.length →
      dirDelta d (st.aircrafts.getD st.selectedAircraft.toNat default).longitude
        (st.aircrafts.getD st.selectedAircraft.toNat default).latitude
        (st.aircrafts.getD i default) < FLT_MAX) :
    ((∃ i, i < st.aircrafts.length ∧ ((i : ℤ) ≠ st.selectedAircraft ∧
        (st.aircrafts.getD i default).on_screen = true ∧
        0 < dirDelta d (st.aircrafts.getD st.selectedAircraft.toNat default).longitude
          (st.aircrafts.getD st.selectedAircraft.toNat default).latitude
          (st.aircrafts.getD i default))) →
      ∃ j, j < st.aircrafts.length ∧
        closest_aircraft_by_angle st jx jy = (j : ℤ) ∧
        closest_aircraft_by_angle st jx jy ≠ st.selectedAircraft ∧
        ((j : ℤ) ≠ st.selectedAircraft ∧
          (st.aircrafts.getD j default).on_screen = true ∧
          0 < dirDelta d (st.aircrafts.getD st.selectedAircraft.toNat default).longitude
            (st.aircrafts.getD st.selectedAircraft.toNat default).latitude
            (st.aircrafts.getD j default)) ∧
        ∀ k, k < st.aircrafts.length → ((k : ℤ) ≠ st.selectedAircraft ∧
            (st.aircrafts.getD k default).on_screen = true ∧
            0 < dirDelta d (st.aircrafts.getD st.selectedAircraft.toNat default).longitude
              (st.aircrafts.getD st.selectedAircraft.toNat default).latitude
              (st.aircrafts.getD k default)) →
          dirDelta d (st.aircrafts.getD st.selectedAircraft.toNat default).longitude
            (st.aircrafts.getD st.selectedAircraft.toNat default).latitude
            (st.aircrafts.getD j default) ≤
          dirDelta d (st.aircrafts.getD st.selectedAircraft.toNat default).longitude
            (st.aircrafts.getD st.selectedAircraft.toNat default).latitude
            (st.aircrafts.getD k default)) ∧
    ((¬∃ i, i < st.aircrafts.length ∧ ((i : ℤ) ≠ st.selectedAircraft ∧
        (st.aircrafts.getD i default).on_screen = true ∧
        0 < dirDelta d (st.aircrafts.getD st.selectedAircraft.toNat default).longitude
          (st.aircrafts.getD st.selectedAircraft.toNat default).latitude
          (st.aircrafts.getD i default))) →
      closest_aircraft_by_angle st jx jy = st.selectedAircraft) := by
  have hselne : ¬st.selectedAircraft = -1 := by omega
  have hred : closest_aircraft_by_angle st jx jy =
      (if (loopN (closestStep st (jx - 4096 / 2) (jy - 4096 / 2)
          (st.aircrafts.getD st.selectedAircraft.toNat default).latitude
          (st.aircrafts.getD st.selectedAircraft.toNat default).longitude)
          st.aircrafts.length (-1, FLT_MAX)).1 = -1 then st.selectedAircraft
        else (loopN (closestStep st (jx - 4096 / 2) (jy - 4096 / 2)
          (st.aircrafts.getD st.selectedAircraft.toNat default).latitude
          (st.aircrafts.getD st.selectedAircraft.toNat default).longitude)
          st.aircrafts.length (-1, FLT_MAX)).1) := by
    simp only [closest_aircraft_by_angle, if_neg hselne]
  have hstep : ∀ (acc : ℤ × ℚ) (i : Nat),
      closestStep st (jx - 4096 / 2) (jy - 4096 / 2)
        (st.aircrafts.getD st.selectedAircraft.toNat default).latitude
        (st.aircrafts.getD st.selectedAircraft.toNat default).longitude acc i =
      if (((i : ℤ) ≠ st.selectedAircraft ∧
            (st.aircrafts.getD i default).on_screen = true ∧
            0 < dirDelta d
              (st.aircrafts.getD st.selectedAircraft.toNat default).longitude
              (st.aircrafts.getD st.selectedAircraft.toNat default).latitude
              (st.aircrafts.getD i default)) ∧
          dirDelta d (st.aircrafts.getD st.selectedAircraft.toNat default).longitude
            (st.aircrafts.getD st.selectedAircraft.toNat default).latitude
            (st.aircrafts.getD i default) < acc.2) then
        ((i : ℤ), dirDelta d
          (st.aircrafts.getD st.selectedAircraft.toNat default).longitude
          (st.aircrafts.getD st.selectedAircraft.toNat default).latitude
          (st.aircrafts.getD i default))
      else acc := by
    cases d with
    | east => exact fun acc i =>
        closestStep_east st _ _ _ _ (classify_east_flags hdir) acc i
    | west => exact fun acc i =>
        closestStep_west st _ _ _ _ (classify_west_flags hdir) acc i
    | north => exact fun acc i =>
        closestStep_north st _ _ _ _ (classify_north_flags hdir) acc i
    | south => exact fun acc i =>
        closestStep_south st _ _ _ _ (classify_south_flags hdir) acc i
  have hscan := scanMinLoop st.aircrafts.length
    (closestStep st (jx - 4096 / 2) (jy - 4096 / 2)
      (st.aircrafts.getD st.selectedAircraft.toNat default).latitude
      (st.aircrafts.getD st.selectedAircraft.toNat default).longitude)
    (fun i => dirDelta d
      (st.aircrafts.getD st.selectedAircraft.toNat default).longitude
      (st.aircrafts.getD st.selectedAircraft.toNat default).latitude
      (st.aircrafts.getD i default))
    (fun i => (i : ℤ) ≠ st.selectedAircraft ∧
      (st.aircrafts.getD i default).on_screen = true ∧
      0 < dirDelta d
        (st.aircrafts.getD st.selectedAircraft.toNat default).longitude
        (st.aircrafts.getD st.selectedAircraft.toNat default).latitude
        (st.aircrafts.getD i default))
    (fun acc i _ => hstep acc i)
    (fun i hi _ => hflt i hi)
  rcases hscan with ⟨hres, hnoQ⟩ | ⟨j, hj, hQj, hres, hmin⟩
  · constructor
    · intro hex
      obtain ⟨i, hi, hQi⟩ := hex
      exact absurd hQi (hnoQ i hi)
    · intro _
      rw [hred, hres, if_pos rfl]
  · constructor
    · intro _
      refine ⟨j, hj, ?_, ?_, hQj, fun k hk hQk => hmin k hk hQk⟩
      · rw [hred, hres, if_neg (show ¬((j : ℤ) = -1) by omega)]
      · rw [hred, hres, if_neg (show ¬((j : ℤ) = -1) by omega)]
        exact hQj.1
    · intro hnone
      exact absurd ⟨j, hj, hQj⟩ hnone

/-- Two visible records with the first one selected, used as a concrete
selection state. -/
def twoAircraftState : DisplayState := ⟨[ualRecord, dalRecord], 0, 0⟩

/-- C8 witness: joystick sample (0, 2048) — a strict eastward dominance —
on two co-located visible records with record 0 selected. -/
theorem closest_directional_min_witness :
    (0 ≤ twoAircraftState.selectedAircraft ∧
      twoAircraftState.selectedAircraft.toNat < twoAircraftState.aircrafts.length ∧
      classifyDirection ((0 : ℤ) - 4096 / 2) ((2048 : ℤ) - 4096 / 2) =
        some JoyDir.east ∧
      ∀ i, i < twoAircraftState.aircrafts.length →
        dirDelta JoyDir.east
          (twoAircraftState.aircrafts.getD twoAircraftState.selectedAircraft.toNat
            default).longitude
          (twoAircraftState.aircrafts.getD twoAircraftState.selectedAircraft.toNat
            default).latitude
          (twoAircraftState.aircrafts.getD i default) < FLT_MAX) ∧
    (((∃ i, i < twoAircraftState.aircrafts.length ∧
        ((i : ℤ) ≠ twoAircraftState.selectedAircraft ∧
        (twoAircraftState.aircrafts.getD i default).on_screen = true ∧
        0 < dirDelta JoyDir.east
          (twoAircraftState.aircrafts.getD twoAircraftState.selectedAircraft.toNat
            default).longitude
          (twoAircraftState.aircrafts.getD twoAircraftState.selectedAircraft.toNat
            default).latitude
          (twoAircraftState.aircrafts.getD i default))) →
      ∃ j, j < twoAircraftState.aircrafts.length ∧
        closest_aircraft_by_angle twoAircraftState 0 2048 = (j : ℤ) ∧
        closest_aircraft_by_angle twoAircraftState 0 2048 ≠
          twoAircraftState.selectedAircraft ∧
        ((j : ℤ) ≠ twoAircraftState.selectedAircraft ∧
          (twoAircraftState.aircrafts.getD j default).on_screen = true ∧
          0 < dirDelta JoyDir.east
            (twoAircraftState.aircrafts.getD twoAircraftState.selectedAircraft.toNat
              default).longitude
            (twoAircraftState.aircrafts.getD twoAircraftState.selectedAircraft.toNat
              default).latitude
            (twoAircraftState.aircrafts.getD j default)) ∧
        ∀ k, k < twoAircraftState.aircrafts.length →
          ((k : ℤ) ≠ twoAircraftState.selectedAircraft ∧
            (twoAircraftState.aircrafts.getD k default).on_screen = true ∧
            0 < dirDelta JoyDir.east
              (twoAircraftState.aircrafts.getD twoAircraftState.selectedAircraft.toNat
                default).longitude
              (twoAircraftState.aircrafts.getD twoAircraftState.selectedAircraft.toNat
                default).latitude
              (twoAircraftState.aircrafts.getD k default)) →
          dirDelta JoyDir.east
            (twoAircraftState.aircrafts.getD twoAircraftState.selectedAircraft.toNat
              default).longitude
            (twoAircraftState.aircrafts.getD twoAircraftState.selectedAircraft.toNat
              default).latitude
            (twoAircraftState.aircrafts.getD j default) ≤
          dirDelta JoyDir.east
            (twoAircraftState.aircrafts.getD twoAircraftState.selectedAircraft.toNat
              default).longitude
            (twoAircraftState.aircrafts.getD twoAircraftState.selectedAircraft.toNat
              default).latitude
            (twoAircraftState.aircrafts.getD k default)) ∧
    ((¬∃ i, i < twoAircraftState.aircrafts.length ∧
        ((i : ℤ) ≠ twoAircraftState.selectedAircraft ∧
        (twoAircraftState.aircrafts.getD i default).on_screen = true ∧
        0 < dirDelta JoyDir.east
          (twoAircraftState.aircrafts.getD twoAircraftState.selectedAircraft.toNat
            default).longitude
          (twoAircraftState.aircrafts.getD twoAircraftState.selectedAircraft.toNat
            default).latitude
          (twoAircraftState.aircrafts.getD i default))) →
      closest_aircraft_by_angle twoAircraftState 0 2048 =
        twoAircraftState.selectedAircraft)) :=
  ⟨⟨by decide, by decide, by decide, by
      intro i hi
      have h2 : i < 2 := by simpa [twoAircraftState] using hi
      interval_cases i <;>
        norm_num [dirDelta, twoAircraftState, ualRecord, dalRecord, FLT_MAX]⟩,
   closest_directional_min twoAircraftState 0 2048 JoyDir.east
     (by decide) (by decide) (by decide) (by
      intro i hi
      have h2 : i < 2 := by simpa [twoAircraftState] using hi
      interval_cases i <;>
        norm_num [dirDelta, twoAircraftState, ualRecord, dalRecord, FLT_MAX])⟩

/-- Squared screen distance to the display center point used by the
initial-selection scan (`threads.c` lines 437-439). -/
def screenDistSq (X_MAX Y_MAX : ℤ) (a : AircraftData) : ℤ :=
  (a.screen_x - X_MAX / 2) * (a.screen_x - X_MAX / 2) +
    (a.screen_y - (Y_MAX + (Y_MAX - 70) / 2) / 2) *
      (a.screen_y - (Y_MAX + (Y_MAX - 70) / 2) / 2)

/-- One iteration of the most-centered scan in `Select_Aircraft_Thread`
(`threads.c` lines 434-446): visible records strictly undercutting the
running minimum squared distance capture the selection.  The accumulator
is `(selectedAircraft, min_distance)`. -/
def selectCenterStep (st : DisplayState) (X_MAX Y_MAX : ℤ) (acc : ℤ × ℤ)
    (i : Nat) : ℤ × ℤ :=
  let aircraft := st.aircrafts.getD i default
  if aircraft.on_screen = true then
    let dx := aircraft.screen_x - X_MAX / 2
    let dy := aircraft.screen_y - (Y_MAX + (Y_MAX - 70) / 2) / 2
    let distance := dx * dx + dy * dy
    if distance < acc.2 then ((i : ℤ), distance) else acc
  else acc

/-- The confirm-press branch of `Select_Aircraft_Thread` (`threads.c`
lines 428-453): starting from the current selection (-1 in this branch)
and `min_distance = INT32_MAX`, scan all live records and return the
resulting selected index. -/
def confirmSelectScan (st : DisplayState) (X_MAX Y_MAX : ℤ) : ℤ :=
  (loopN (selectCenterStep st X_MAX Y_MAX) st.aircrafts.length
    (st.selectedAircraft, 2147483647)).1

theorem selectCenterStep_eq (st : DisplayState) (X_MAX Y_MAX : ℤ) (acc : ℤ × ℤ)
    (i : Nat) :
    selectCenterStep st X_MAX Y_MAX acc i =
      if (st.aircrafts.getD i default).on_screen = true ∧
          screenDistSq X_MAX Y_MAX (st.aircrafts.getD i default) < acc.2 then
        ((i : ℤ), screenDistSq X_MAX Y_MAX (st.aircrafts.getD i default))
      else acc := by
  simp only [selectCenterStep, screenDistSq]
  by_cases ho : (st.aircrafts.getD i default).on_screen = true
  · rw [if_pos ho]
    by_cases hd : ((st.aircrafts.getD i default).screen_x - X_MAX / 2) *
          ((st.aircrafts.getD i default).screen_x - X_MAX / 2) +
        ((st.aircrafts.getD i default).screen_y - (Y_MAX + (Y_MAX - 70) / 2) / 2) *
          ((st.aircrafts.getD i default).screen_y - (Y_MAX + (Y_MAX - 70) / 2) / 2) <
        acc.2
    · rw [if_pos hd, if_pos ⟨ho, hd⟩]
    · rw [if_neg hd, if_neg (fun hc => hd hc.2)]
  · rw [if_neg ho, if_neg (fun hc => ho hc.1)]

/-- Generic analysis of a first-wins strict-minimum scan over `ℤ` with
initial bound `INT32_MAX`: either no index qualifies and the accumulator
is untouched, or the result is the first qualifying index attaining the
minimum value. -/
theorem scanMinFirstLoop (n : Nat) (f : ℤ × ℤ → Nat → ℤ × ℤ) (dist : Nat → ℤ)
    (V : Nat → Prop) [DecidablePred V] (init : ℤ)
    (hstep : ∀ acc i, i < n →
      f acc i = if V i ∧ dist i < acc.2 then ((i : ℤ), dist i) else acc)
    (hbound : ∀ i, i < n → V i → dist i < 2147483647) :
    (loopN f n (init, 2147483647) = (init, 2147483647) ∧ ∀ j, j < n → ¬V j) ∨
    (∃ j, j < n ∧ V j ∧ loopN f n (init, 2147483647) = ((j : ℤ), dist j) ∧
      (∀ k, k < n → V k → dist j ≤ dist k) ∧
      (∀ k, k < j → V k → dist j < dist k)) := by
  exact loopN_invariant f
    (fun k acc => (acc = (init, 2147483647) ∧ ∀ j, j < k → ¬V j) ∨
      (∃ j, j < k ∧ V j ∧ acc = ((j : ℤ), dist j) ∧
        (∀ m, m < k → V m → dist j ≤ dist m) ∧
        (∀ m, m < j → V m → dist j < dist m)))
    n (init, 2147483647) (Or.inl ⟨rfl, fun j hj => absurd hj (Nat.not_lt_zero j)⟩)
    (by
      intro k b hk hb
      rw [hstep b k hk]
      rcases hb with ⟨hbe, hnone⟩ | ⟨j, hj, hVj, hbe, hmin, hfirst⟩
      · by_cases hV : V k
        · rw [hbe, if_pos ⟨hV, hbound k hk hV⟩]
          refine Or.inr ⟨k, Nat.lt_succ_self k, hV, rfl, ?_, ?_⟩
          · intro m hm hVm
            rcases Nat.lt_succ_iff_lt_or_eq.mp hm with hm' | hm'
            · exact absurd hVm (hnone m hm')
            · subst hm'; exact le_refl _
          · intro m hm hVm
            exact absurd hVm (hnone m hm)
        · rw [if_neg (fun hcon => hV hcon.1)]
          refine Or.inl ⟨hbe, ?_⟩
          intro m hm
          rcases Nat.lt_succ_iff_lt_or_eq.mp hm with hm' | hm'
          · exact hnone m hm'
          · subst hm'; exact hV
      · rw [hbe]
        by_cases hV : V k ∧ dist k < dist j
        · rw [if_pos hV]
          refine Or.inr ⟨k, Nat.lt_succ_self k, hV.1, rfl, ?_, ?_⟩
          · intro m hm hVm
            rcases Nat.lt_succ_iff_lt_or_eq.mp hm with hm' | hm'
            · exact le_of_lt (lt_of_lt_of_le hV.2 (hmin m hm' hVm))
            · subst hm'; exact le_refl _
          · intro m hm hVm
            exact lt_of_lt_of_le hV.2 (hmin m hm hVm)
        · rw [if_neg hV]
          refine Or.inr ⟨j, Nat.lt_succ_of_lt hj, hVj, rfl, ?_, hfirst⟩
          intro m hm hVm
          rcases Nat.lt_succ_iff_lt_or_eq.mp hm with hm' | hm'
          · exact hmin m hm' hVm
          · subst hm'
            exact not_lt.mp (fun hlt => hV ⟨hVm, hlt⟩))

/-- C9: on a confirm press with no aircraft selected, the scan selects
the first visible live record attaining the minimum squared
screen-distance to the display center (strict improvement scanning in
index order breaks ties toward the first index), and leaves the
selection at -1 when no record is visible.  The bound hypothesis mirrors
the C initialization `min_distance = INT32_MAX`. -/
theorem confirm_press_selects_most_centered (st : DisplayState) (X_MAX Y_MAX : ℤ)
    (hsel : st.selectedAircraft = -1)
    (hbound : ∀ i, i < st.aircrafts.length →
      (st.aircrafts.getD i default).on_screen = true →
      screenDistSq X_MAX Y_MAX (st.aircrafts.getD i default) < 2147483647) :
    ((∃ i, i < st.aircrafts.length ∧
        (st.aircrafts.getD i default).on_screen = true) →
      ∃ j, j < st.aircrafts.length ∧
        confirmSelectScan st X_MAX Y_MAX = (j : ℤ) ∧
        (st.aircrafts.getD j default).on_screen = true ∧
        (∀ k, k < st.aircrafts.length →
          (st.aircrafts.getD k default).on_screen = true →
          screenDistSq X_MAX Y_MAX (st.aircrafts.getD j default) ≤
            screenDistSq X_MAX Y_MAX (st.aircrafts.getD k default)) ∧
        (∀ k, k < j → (st.aircrafts.getD k default).on_screen = true →
          screenDistSq X_MAX Y_MAX (st.aircrafts.getD j default) <
            screenDistSq X_MAX Y_MAX (st.aircrafts.getD k default))) ∧
    ((¬∃ i, i < st.aircrafts.length ∧
        (st.aircrafts.getD i default).on_screen = true) →
      confirmSelectScan st X_MAX Y_MAX = -1) := by
  have hscan := scanMinFirstLoop st.aircrafts.length
    (selectCenterStep st X_MAX Y_MAX)
    (fun i => screenDistSq X_MAX Y_MAX (st.aircrafts.getD i default))
    (fun i => (st.aircrafts.getD i default).on_screen = true)
    st.selectedAircraft
    (fun acc i _ => selectCenterStep_eq st X_MAX Y_MAX acc i)
    (fun i hi hv => hbound i hi hv)
  rcases hscan with ⟨hres, hnoV⟩ | ⟨j, hj, hVj, hres, hmin, hfirst⟩
  · constructor
    · rintro ⟨i, hi, hVi⟩
      exact absurd hVi (hnoV i hi)
    · intro _
      show (loopN (selectCenterStep st X_MAX Y_MAX) st.aircrafts.length
        (st.selectedAircraft, 2147483647)).1 = -1
      rw [hres]
      exact hsel
  · constructor
    · intro _
      refine ⟨j, hj, ?_, hVj, hmin, hfirst⟩
      show (loopN (selectCenterStep st X_MAX Y_MAX) st.aircrafts.length
        (st.selectedAircraft, 2147483647)).1 = (j : ℤ)
      rw [hres]
    · intro hnone
      exact absurd ⟨j, hj, hVj⟩ hnone

/-- C9 witness: one visible record on a 240 by 320 screen, no selection. -/
theorem confirm_press_selects_most_centered_witness :
    ((⟨[ualRecord], -1, 0⟩ : DisplayState).selectedAircraft = -1 ∧
      ∀ i, i < (⟨[ualRecord], -1, 0⟩ : DisplayState).aircrafts.length →
        ((⟨[ualRecord], -1, 0⟩ : DisplayState).aircrafts.getD i default).on_screen =
          true →
        screenDistSq 240 320
          ((⟨[ualRecord], -1, 0⟩ : DisplayState).aircrafts.getD i default) <
          2147483647) ∧
    (((∃ i, i < (⟨[ualRecord], -1, 0⟩ : DisplayState).aircrafts.length ∧
        ((⟨[ualRecord], -1, 0⟩ : DisplayState).aircrafts.getD i default).on_screen =
          true) →
      ∃ j, j < (⟨[ualRecord], -1, 0⟩ : DisplayState).aircrafts.length ∧
        confirmSelectScan ⟨[ualRecord], -1, 0⟩ 240 320 = (j : ℤ) ∧
        ((⟨[ualRecord], -1, 0⟩ : DisplayState).aircrafts.getD j default).on_screen =
          true ∧
        (∀ k, k < (⟨[ualRecord], -1, 0⟩ : DisplayState).aircrafts.length →
          ((⟨[ualRecord], -1, 0⟩ : DisplayState).aircrafts.getD k default).on_screen =
            true →
          screenDistSq 240 320
            ((⟨[ualRecord], -1, 0⟩ : DisplayState).aircrafts.getD j default) ≤
          screenDistSq 240 320
            ((⟨[ualRecord], -1, 0⟩ : DisplayState).aircrafts.getD k default)) ∧
        (∀ k, k < j →
          ((⟨[ualRecord], -1, 0⟩ : DisplayState).aircrafts.getD k default).on_screen =
            true →
          screenDistSq 240 320
            ((⟨[ualRecord], -1, 0⟩ : DisplayState).aircrafts.getD j default) <
          screenDistSq 240 320
            ((⟨[ualRecord], -1, 0⟩ : DisplayState).aircrafts.getD k default))) ∧
    ((¬∃ i, i < (⟨[ualRecord], -1, 0⟩ : DisplayState).aircrafts.length ∧
        ((⟨[ualRecord], -1, 0⟩ : DisplayState).aircrafts.getD i default).on_screen =
          true) →
      confirmSelectScan ⟨[ualRecord], -1, 0⟩ 240 320 = -1)) :=
  ⟨⟨rfl, by decide⟩,
   confirm_press_selects_most_centered ⟨[ualRecord], -1, 0⟩ 240 320 rfl (by decide)⟩

end FlightTracker
